import Mathlib

/-!
Verification of the weather-chatbot data-reconciliation core
(`src/core/wrangle.py`, `src/core/weather_sources.py`).

Shallow embedding conventions:
* calendar dates (the `'YYYY-MM-DD'` strings flowing through the pandas
  code) are `Date` records; lexicographic order on (year, month, day)
  models lexicographic order on ISO date strings;
* numeric cell values are `Option ℚ` (`none` models `None`/`NaN`);
* a pandas DataFrame is a list of typed rows, with extra flags where the
  source mutates a frame in place (column addition / dtype change);
* code that can raise a Python exception returns `Except String _`.
-/

/-- A calendar date, modelling the `'YYYY-MM-DD'` strings of the source. -/
structure Date where
  year : ℕ
  month : ℕ
  day : ℕ
deriving DecidableEq, Repr

/-- Lexicographic order on dates: the order `sort_values` induces on
ISO-formatted date strings. -/
def Date.le (a b : Date) : Prop :=
  a.year < b.year ∨
    (a.year = b.year ∧
      (a.month < b.month ∨ (a.month = b.month ∧ a.day ≤ b.day)))

instance : DecidableRel Date.le := by
  intro a b
  unfold Date.le
  infer_instance

instance : IsTotal Date Date.le :=
  ⟨by intro a b; unfold Date.le; omega⟩

instance : IsTrans Date Date.le :=
  ⟨by intro a b c; unfold Date.le; omega⟩

instance : IsAntisymm Date Date.le := by
  constructor
  intro a b h1 h2
  unfold Date.le at h1 h2
  have hy : a.year = b.year := by omega
  have hm : a.month = b.month := by omega
  have hd : a.day = b.day := by omega
  cases a; cases b
  simp_all

/-- Order on optional dates: `None`/`NaN` keys sort last
(pandas `sort_values` default `na_position` is `'last'`). -/
def odateLE (a b : Option Date) : Prop :=
  match a, b with
  | _, none => True
  | none, some _ => False
  | some x, some y => Date.le x y

instance : DecidableRel odateLE := by
  intro a b
  unfold odateLE
  cases a <;> cases b <;> infer_instance

instance : IsTotal (Option Date) odateLE := by
  constructor
  intro a b
  cases a <;> cases b <;> simp [odateLE]
  exact total_of Date.le _ _

instance : IsTrans (Option Date) odateLE := by
  constructor
  intro a b c h1 h2
  cases a <;> cases b <;> cases c <;> simp_all [odateLE]
  exact Trans.trans h1 h2

instance : IsAntisymm (Option Date) odateLE := by
  constructor
  intro a b h1 h2
  cases a <;> cases b <;> simp_all [odateLE]
  exact antisymm h1 h2

/-! ## Forecast payloads and normalization (`wrangle.normalize_forecast`) -/

/-- The `"daily"` object of an Open-Meteo payload: a `time` array of dates
plus optional parallel arrays for each weather variable (a key may be
absent from the JSON object, and an array element may be `null`). -/
structure OMDaily where
  time : List Date
  temperature_2m_max : Option (List (Option ℚ))
  temperature_2m_min : Option (List (Option ℚ))
  precipitation_sum : Option (List (Option ℚ))
  windspeed_10m_max : Option (List (Option ℚ))
deriving DecidableEq, Repr

/-- A raw Open-Meteo payload; `daily = none` models a payload without a
`"daily"` key (in particular the empty dict returned on provider failure). -/
structure OMPayload where
  daily : Option OMDaily
deriving DecidableEq, Repr

/-- One element of a Weatherbit `"data"` array; every field is read with
`.get`, so each may be absent. -/
structure WBDay where
  datetime : Option Date
  max_temp : Option ℚ
  min_temp : Option ℚ
  precip : Option ℚ
  wind_spd : Option ℚ
deriving DecidableEq, Repr

/-- A raw Weatherbit payload; the list models `data.get("data", [])`. -/
structure WBPayload where
  data : List WBDay
deriving DecidableEq, Repr

/-- A normalized Open-Meteo row (`date`, `temp_max-degC-open_meteo`, ...).
The date comes from the `time` array, hence is always present. -/
structure OMRow where
  date : Date
  temp_max : Option ℚ
  temp_min : Option ℚ
  precip : Option ℚ
  wind_max : Option ℚ
deriving DecidableEq, Repr

/-- A normalized Weatherbit row (`date`, `temp_max-degC-weatherbit`, ...).
`day.get("datetime")` may be `None`, so the date is optional. -/
structure WBRow where
  date : Option Date
  temp_max : Option ℚ
  temp_min : Option ℚ
  precip : Option ℚ
  wind_max : Option ℚ
deriving DecidableEq, Repr

/-- `daily.get(key, [None]*len(dates))[i]`: an absent key falls back to a
list of `None`s (always long enough for the loop index), while a present
but too-short array raises `IndexError` at position `i`. -/
def omIndex (arr : Option (List (Option ℚ))) (i : ℕ) : Except String (Option ℚ) :=
  match arr with
  | none => .ok none
  | some l =>
    match l.get? i with
    | some x => .ok x
    | none => .error "IndexError"

/-- `data.get("daily", {})`: the payload's daily object, defaulting to the
empty object. -/
def omDailyOf (p : OMPayload) : OMDaily :=
  p.daily.getD ⟨[], none, none, none, none⟩

/-- The `source_name == "open_meteo"` branch of `normalize_forecast`:
one output row per entry of `daily["time"]`, each variable read from its
parallel array at the same index. -/
def normalize_forecast_open_meteo (p : OMPayload) : Except String (List OMRow) :=
  let daily := omDailyOf p
  daily.time.enum.mapM (fun x => do
    let tmax ← omIndex daily.temperature_2m_max x.1
    let tmin ← omIndex daily.temperature_2m_min x.1
    let prec ← omIndex daily.precipitation_sum x.1
    let wind ← omIndex daily.windspeed_10m_max x.1
    pure { date := x.2, temp_max := tmax, temp_min := tmin,
           precip := prec, wind_max := wind })

/-- The `source_name == "weatherbit"` branch of `normalize_forecast`:
one output row per element of `data["data"]`, all fields via `.get`
(never raises). -/
def normalize_forecast_weatherbit (p : WBPayload) : List WBRow :=
  p.data.map (fun day =>
    { date := day.datetime, temp_max := day.max_temp, temp_min := day.min_temp,
      precip := day.precip, wind_max := day.wind_spd })

/-! ## Forecast merge (`wrangle.merge_forecasts`) -/

/-- A row of the merged forecast table: the join key plus both sources'
columns. -/
structure MergedRow where
  date : Option Date
  om_temp_max : Option ℚ
  om_temp_min : Option ℚ
  om_precip : Option ℚ
  om_wind_max : Option ℚ
  wb_temp_max : Option ℚ
  wb_temp_min : Option ℚ
  wb_precip : Option ℚ
  wb_wind_max : Option ℚ
deriving DecidableEq, Repr

/-- Merged row from a matched pair of input rows. -/
def mkBoth (a : OMRow) (b : WBRow) : MergedRow :=
  { date := some a.date,
    om_temp_max := a.temp_max, om_temp_min := a.temp_min,
    om_precip := a.precip, om_wind_max := a.wind_max,
    wb_temp_max := b.temp_max, wb_temp_min := b.temp_min,
    wb_precip := b.precip, wb_wind_max := b.wind_max }

/-- Merged row for a date present only in the Open-Meteo table: the
Weatherbit columns are `NaN`. -/
def mkLeft (a : OMRow) : MergedRow :=
  { date := some a.date,
    om_temp_max := a.temp_max, om_temp_min := a.temp_min,
    om_precip := a.precip, om_wind_max := a.wind_max,
    wb_temp_max := none, wb_temp_min := none,
    wb_precip := none, wb_wind_max := none }

/-- Merged row for a date present only in the Weatherbit table: the
Open-Meteo columns are `NaN`. -/
def mkRight (b : WBRow) : MergedRow :=
  { date := b.date,
    om_temp_max := none, om_temp_min := none,
    om_precip := none, om_wind_max := none,
    wb_temp_max := b.temp_max, wb_temp_min := b.temp_min,
    wb_precip := b.precip, wb_wind_max := b.wind_max }

/-- `pd.merge(df_openmeteo, df_weatherbit, on="date", how="outer")` on two
frames that both carry a `date` column: every left row paired with each
right row sharing its key (or with absent right columns when unmatched),
followed by the unmatched right rows. -/
def joinRows (l : List OMRow) (r : List WBRow) : List MergedRow :=
  (l.flatMap (fun a =>
    let ms := r.filter (fun b => b.date = some a.date)
    if ms.isEmpty then [mkLeft a] else ms.map (mkBoth a))) ++
  ((r.filter (fun b => ¬ l.any (fun a => some a.date = b.date))).map mkRight)

/-- Row order used by `merged_df.sort_values("date")`. -/
def mergedLE (x y : MergedRow) : Prop := odateLE x.date y.date

instance : DecidableRel mergedLE := by
  intro a b
  unfold mergedLE
  infer_instance

instance : IsTotal MergedRow mergedLE :=
  ⟨fun a b => total_of odateLE a.date b.date⟩

instance : IsTrans MergedRow mergedLE :=
  ⟨fun a b c h1 h2 => IsTrans.trans a.date b.date c.date h1 h2⟩

/-- Lines 61–64 of `wrangle.py` at table level: outer join on `date`,
then sort ascending by `date`. -/
def mergeTables (l : List OMRow) (r : List WBRow) : List MergedRow :=
  List.insertionSort mergedLE (joinRows l r)

/-- `wrangle.merge_forecasts` on raw payloads: normalize each source
(the Open-Meteo branch can raise `IndexError`), then `pd.merge` on
`"date"` — which raises `KeyError: 'date'` whenever a side's frame lacks
the `date` column, i.e. whenever `pd.DataFrame(normalized)` was built
from an empty row list — then sort by date. -/
def merge_forecasts (om : OMPayload) (wb : WBPayload) :
    Except String (List MergedRow) := do
  let l ← normalize_forecast_open_meteo om
  let r := normalize_forecast_weatherbit wb
  if l.isEmpty ∨ r.isEmpty then
    .error "KeyError: date"
  else
    pure (mergeTables l r)

/-! ## NOAA historical data (`wrangle.normalize_noaa_data`) -/

/-- One raw NOAA record: `{date, datatype, value}`. NOAA values are
numeric; `pd.to_datetime(...).strftime` reduces the timestamp to the
calendar day modelled by `Date`. -/
structure NoaaRecord where
  date : Date
  datatype : String
  value : ℚ
deriving DecidableEq, Repr

/-- A row of the wide (pivoted) historical table. The four optional cells
are the columns `temp_max-degC-noaa`, `temp_min-degC-noaa`,
`precip-mm-noaa`, `wind_max-mpersec-noaa`. -/
structure NoaaRow where
  date : Date
  temp_max : Option ℚ
  temp_min : Option ℚ
  precip : Option ℚ
  wind_max : Option ℚ
deriving DecidableEq, Repr

/-- The historical DataFrame as it flows through the pipeline. The two
flags record in-place mutations the summarizers perform on the frame
object they receive: `dateConverted` marks
`df["date"] = pd.to_datetime(df["date"])` (a dtype change on the date
column) and `hasMonthDay` marks the added `month_day` column (whose
values are derived from `date`). -/
structure HistTable where
  rows : List NoaaRow
  dateConverted : Bool
  hasMonthDay : Bool
deriving DecidableEq, Repr

/-- `pivot_table(..., aggfunc='first')` for one cell: the value of the
first record carrying this `(date, datatype)` pair, in input order. -/
def firstVal (rs : List NoaaRecord) (d : Date) (t : String) : Option ℚ :=
  ((rs.filter (fun r => r.date = d ∧ r.datatype = t)).head?).map (fun r => r.value)

/-- The sorted list of distinct dates of the input records:
`pivot_table` sorts its index ascending. -/
def pivotDates (rs : List NoaaRecord) : List Date :=
  List.insertionSort Date.le ((rs.map (fun r => r.date)).dedup)

/-- `wrangle.normalize_noaa_data`: empty input yields the empty table with
the canonical columns pre-declared; otherwise pivot the long-form records
to one row per distinct date (index sorted ascending, first value wins per
`(date, datatype)` cell), rename `TMAX`/`TMIN`/`PRCP`/`AWND` to the
canonical column names, fill the columns a datatype never produced with
`pd.NA`, and keep only the canonical columns. -/
def normalize_noaa_data (rs : List NoaaRecord) : HistTable :=
  { rows :=
      (pivotDates rs).map (fun d =>
        { date := d,
          temp_max := firstVal rs d "TMAX",
          temp_min := firstVal rs d "TMIN",
          precip := firstVal rs d "PRCP",
          wind_max := firstVal rs d "AWND" }),
    dateConverted := false,
    hasMonthDay := false }

/-! ## Summary statistics (`wrangle.summarize_noaa_data`) -/

/-- `dropna(subset=weather_cols, how="all")` drops exactly the rows in
which all four weather cells are absent. -/
def allAbsent (w : NoaaRow) : Prop :=
  w.temp_max = none ∧ w.temp_min = none ∧ w.precip = none ∧ w.wind_max = none

instance (w : NoaaRow) : Decidable (allAbsent w) := by
  unfold allAbsent
  infer_instance

/-- Round a rational to two decimal places (`DataFrame.round(2)`). -/
def roundTo2 (q : ℚ) : ℚ := (round (q * 100) : ℤ) / 100

/-- Nearest integer to the square root of a nonnegative rational, used to
express the rounded standard deviation exactly. -/
def sqrtNearest (r : ℚ) : ℕ :=
  let n0 := Nat.sqrt r.floor.toNat
  if ((n0 : ℚ) + 1/2) ^ 2 ≤ r then n0 + 1 else n0

/-- The sample standard deviation `sqrt v` rounded to two decimal places,
expressed via integer square root of `v * 10000`. -/
def roundStd (v : ℚ) : ℚ := (sqrtNearest (v * 10000) : ℚ) / 100

/-- The non-absent values of one weather column over a row list. -/
def colVals (rows : List NoaaRow) (cell : NoaaRow → Option ℚ) : List ℚ :=
  rows.filterMap cell

/-- Pandas column mean: `NaN` when no value is present. -/
def colMean (vals : List ℚ) : Option ℚ :=
  if vals.length = 0 then none else some (vals.sum / vals.length)

/-- Pandas sample variance (`ddof=1`), i.e. the square of the `std`
column: `NaN` when fewer than two values are present. -/
def colVariance (vals : List ℚ) : Option ℚ :=
  if vals.length ≤ 1 then none
  else
    some (((vals.map (fun x => (x - vals.sum / vals.length) ^ 2)).sum) /
      (vals.length - 1))

/-- One row of the historical summary table (`mean`, `std`, `count` for a
single variable), with mean and std rounded to two places by
`summary.round(2)`. -/
structure VarStats where
  mean : Option ℚ
  std : Option ℚ
  count : ℕ
deriving DecidableEq, Repr

/-- Summary statistics of one weather column after the all-absent rows
have been dropped. -/
def summarizeCol (cleaned : List NoaaRow) (cell : NoaaRow → Option ℚ) : VarStats :=
  let vals := colVals cleaned cell
  { mean := (colMean vals).map roundTo2,
    std := (colVariance vals).map roundStd,
    count := vals.length }

/-- The historical summary table: one `VarStats` row per weather column. -/
structure NoaaSummary where
  temp_max : VarStats
  temp_min : VarStats
  precip : VarStats
  wind_max : VarStats
deriving DecidableEq, Repr

/-- `wrangle.summarize_noaa_data`: converts the input frame's `date`
column in place (`df["date"] = pd.to_datetime(df["date"])` — returned here
as the second component), drops the rows whose four weather cells are all
absent, coerces the columns to numeric (identity on this typed model), and
computes rounded mean, rounded std and count per column. -/
def summarize_noaa_data (t : HistTable) : NoaaSummary × HistTable :=
  let cleaned := t.rows.filter (fun w => ¬ allAbsent w)
  ({ temp_max := summarizeCol cleaned (fun w => w.temp_max),
     temp_min := summarizeCol cleaned (fun w => w.temp_min),
     precip := summarizeCol cleaned (fun w => w.precip),
     wind_max := summarizeCol cleaned (fun w => w.wind_max) },
   { t with dateConverted := true })

/-! ## Climatology (`wrangle.summarize_noaa_daily_climatology`) -/

/-- The `month_day` grouping key: `date.strftime("%m-%d")`, i.e. the
month-day pair with the year discarded. -/
def monthDay (d : Date) : ℕ × ℕ := (d.month, d.day)

/-- Order on month-day keys (`groupby` sorts group keys ascending; on
zero-padded `"%m-%d"` strings this is the lexicographic pair order). -/
def mdLE (a b : ℕ × ℕ) : Prop :=
  a.1 < b.1 ∨ (a.1 = b.1 ∧ a.2 ≤ b.2)

instance : DecidableRel mdLE := by
  intro a b
  unfold mdLE
  infer_instance

instance : IsTotal (ℕ × ℕ) mdLE :=
  ⟨by intro a b; unfold mdLE; omega⟩

instance : IsTrans (ℕ × ℕ) mdLE :=
  ⟨by intro a b c; unfold mdLE; omega⟩

instance : IsAntisymm (ℕ × ℕ) mdLE := by
  constructor
  intro a b h1 h2
  unfold mdLE at h1 h2
  have h3 : a.1 = b.1 ∧ a.2 = b.2 := by omega
  exact Prod.ext h3.1 h3.2

/-- Climatology statistics of one variable within one month-day group.
The code's `std` cell is the (unrounded) sample standard deviation, an
irrational real in general; it is represented here by its square `stdSq`
(the sample variance), so the cell's value is `Real.sqrt` of `stdSq`.
`summarize_noaa_daily_climatology` applies no rounding. -/
structure ClimVarStats where
  mean : Option ℚ
  stdSq : Option ℚ
  count : ℕ
deriving DecidableEq, Repr

/-- Climatology statistics of one column over one group of rows. -/
def climCol (grp : List NoaaRow) (cell : NoaaRow → Option ℚ) : ClimVarStats :=
  let vals := colVals grp cell
  { mean := colMean vals, stdSq := colVariance vals, count := vals.length }

/-- One row of the flattened climatology table: the `month_day` key plus,
for each weather column `c`, the columns `c-mean`, `c-std`, `c-count`. -/
structure ClimRow where
  month_day : ℕ × ℕ
  temp_max : ClimVarStats
  temp_min : ClimVarStats
  precip : ClimVarStats
  wind_max : ClimVarStats
deriving DecidableEq, Repr

/-- `wrangle.summarize_noaa_daily_climatology`: mutates the input frame in
place (`df["date"] = pd.to_datetime(...)`, `df["month_day"] = ...` — the
updated frame is the second component), drops the all-absent rows, groups
the remaining rows by `month_day` (keys sorted ascending) and aggregates
`mean`, `std`, `count` per weather column, flattening the columns to
`variable-statistic` names. -/
def summarize_noaa_daily_climatology (t : HistTable) :
    List ClimRow × HistTable :=
  let cleaned := t.rows.filter (fun w => ¬ allAbsent w)
  let keys := List.insertionSort mdLE ((cleaned.map (fun w => monthDay w.date)).dedup)
  (keys.map (fun k =>
    let grp := cleaned.filter (fun w => monthDay w.date = k)
    { month_day := k,
      temp_max := climCol grp (fun w => w.temp_max),
      temp_min := climCol grp (fun w => w.temp_min),
      precip := climCol grp (fun w => w.precip),
      wind_max := climCol grp (fun w => w.wind_max) }),
   { t with dateConverted := true, hasMonthDay := true })

/-- The long-form triples of one wide row: one triple per non-absent
cell, under the original datatype codes. -/
def rowRecords (w : NoaaRow) : List NoaaRecord :=
  (match w.temp_max with
   | some v => [({ date := w.date, datatype := "TMAX", value := v } : NoaaRecord)]
   | none => []) ++
  (match w.temp_min with
   | some v => [({ date := w.date, datatype := "TMIN", value := v } : NoaaRecord)]
   | none => []) ++
  (match w.precip with
   | some v => [({ date := w.date, datatype := "PRCP", value := v } : NoaaRecord)]
   | none => []) ++
  (match w.wind_max with
   | some v => [({ date := w.date, datatype := "AWND", value := v } : NoaaRecord)]
   | none => [])

/-- Re-flattening of the wide historical table back to long-form
`{date, datatype, value}` triples, stated from the spec's round-trip
property. -/
def flattenWide (rows : List NoaaRow) : List NoaaRecord :=
  rows.flatMap rowRecords

/-! ## Date arithmetic and the 10-year ranges
(`weather_sources.generate_past_10yr_ranges`) -/

/-- Gregorian leap-year test (Python `datetime` calendar). -/
def isLeap (y : ℕ) : Bool :=
  y % 4 = 0 && (y % 100 != 0 || y % 400 = 0)

/-- Number of days of month `m` in year `y`. -/
def daysInMonth (y m : ℕ) : ℕ :=
  if m = 2 then (if isLeap y then 29 else 28)
  else if m = 4 ∨ m = 6 ∨ m = 9 ∨ m = 11 then 30
  else 31

/-- A date whose month and day actually exist in the calendar. -/
def ValidDate (d : Date) : Prop :=
  1 ≤ d.month ∧ d.month ≤ 12 ∧ 1 ≤ d.day ∧ d.day ≤ daysInMonth d.year d.month

instance (d : Date) : Decidable (ValidDate d) := by
  unfold ValidDate
  infer_instance

/-- The day after `d` (`timedelta(days=1)`). -/
def Date.nextDay (d : Date) : Date :=
  if d.day < daysInMonth d.year d.month then ⟨d.year, d.month, d.day + 1⟩
  else if d.month < 12 then ⟨d.year, d.month + 1, 1⟩
  else ⟨d.year + 1, 1, 1⟩

/-- `d + timedelta(days=n)`. -/
def addDays (d : Date) : ℕ → Date
  | 0 => d
  | n + 1 => addDays d.nextDay n

/-- `today.replace(year=y)` with the source's `except ValueError` fallback
to `day=28` (only a Feb 29 `today` mapped to a non-leap year raises). -/
def replaceYearClamped (today : Date) (y : ℕ) : Date :=
  if today.month = 2 ∧ today.day = 29 ∧ ¬ isLeap y then ⟨y, 2, 28⟩
  else ⟨y, today.month, today.day⟩

/-- `weather_sources.generate_past_10yr_ranges`: for `i = 1..10`, the
inclusive range from `today` shifted back `i` years to that start plus
`days_back` days. `today` (read from `date.today()` in the source) is an
explicit parameter here. -/
def generate_past_10yr_ranges (today : Date) (days_back : ℕ) :
    List (Date × Date) :=
  (List.range 10).map (fun j =>
    let s := replaceYearClamped today (today.year - (j + 1))
    (s, addDays s days_back))

/-! ## Station selection (`weather_sources.find_nearest_station`) -/

/-- One entry of the NOAA station directory response. -/
structure Station where
  id : String
  latitude : ℚ
  longitude : ℚ
deriving DecidableEq, Repr

/-- The filter of `find_nearest_station`:
`s["id"].startswith("GHCND:USW")`, expressed on the character lists of
the strings. -/
def isUSW (s : Station) : Bool :=
  "GHCND:USW".data.isPrefixOf s.id.data

/-- Python `min(usw_stations, key=...)`: the first element attaining the
minimal key. -/
def minByDist (dist : Station → ℚ) : List Station → Option Station
  | [] => none
  | h :: t => some (t.foldl (fun best s => if dist s < dist best then s else best) h)

/-- `weather_sources.find_nearest_station` on a successfully fetched
station directory (`response.json().get("results", [])` is the `stations`
argument): keep only the stations whose identifier starts with
`"GHCND:USW"`; if none remain return `None`, else return the station
minimizing `geodesic((lat, lon), (s.latitude, s.longitude)).km`. The
geodesic distance is an opaque parameter `geokm` of the embedding. -/
def find_nearest_station (geokm : ℚ × ℚ → ℚ × ℚ → ℚ) (latlon : ℚ × ℚ)
    (stations : List Station) : Option Station :=
  let usw := stations.filter isUSW
  minByDist (fun s => geokm latlon (s.latitude, s.longitude)) usw

/-- The station-selection step of `weather_sources.get_noaa_10yr_historical`:
if no qualifying station was found, raise
`ValueError("No NOAA station found with data coverage ...")`; otherwise
proceed with the chosen station's id. -/
def get_noaa_10yr_historical_station (geokm : ℚ × ℚ → ℚ × ℚ → ℚ)
    (latlon : ℚ × ℚ) (stations : List Station) : Except String String :=
  match find_nearest_station geokm latlon stations with
  | none => .error "No NOAA station found with data coverage for the location and date range."
  | some s => .ok s.id

/-! ## Helper lemmas -/

/-- The number of values a column contributes equals the number of rows
where that column is non-absent. -/
theorem colVals_length (rows : List NoaaRow) (cell : NoaaRow → Option ℚ) :
    (colVals rows cell).length = rows.countP (fun w => (cell w).isSome) := by
  induction rows with
  | nil => rfl
  | cons h t ih =>
    simp only [colVals, List.filterMap_cons, List.countP_cons] at *
    cases hc : cell h <;> simp [hc, ih, colVals]

/-- Dropping the all-absent rows does not change a column's non-absent
count, provided a non-absent cell already prevents the drop. -/
theorem count_col_filter (rows : List NoaaRow) (cell : NoaaRow → Option ℚ)
    (h : ∀ w, (cell w).isSome = true → ¬ allAbsent w) :
    (colVals (rows.filter (fun w => ¬ allAbsent w)) cell).length
      = rows.countP (fun w => (cell w).isSome) := by
  rw [colVals_length, List.countP_filter]
  refine List.countP_congr (fun w _ => ?_)
  by_cases hs : (cell w).isSome = true
  · simp [hs, h w hs]
  · simp [hs]

/-- C6: for every input table, each variable's reported count in the
historical summary equals the number of rows of the table in which that
specific variable is non-absent; rows that are absent in all four
variables contribute to no count. -/
theorem spec_C6 (t : HistTable) :
    (summarize_noaa_data t).1.temp_max.count
        = t.rows.countP (fun w => (w.temp_max).isSome) ∧
    (summarize_noaa_data t).1.temp_min.count
        = t.rows.countP (fun w => (w.temp_min).isSome) ∧
    (summarize_noaa_data t).1.precip.count
        = t.rows.countP (fun w => (w.precip).isSome) ∧
    (summarize_noaa_data t).1.wind_max.count
        = t.rows.countP (fun w => (w.wind_max).isSome) := by
  refine ⟨?_, ?_, ?_, ?_⟩ <;>
    · show (colVals _ _).length = _
      refine count_col_filter _ _ (fun w hw => ?_)
      intro hab
      obtain ⟨h1, h2, h3, h4⟩ := hab
      simp_all

/-- C10 (amended): neither summarizer changes the rows of its input frame
(only the date dtype and an added `month_day` column), and since both read
only the rows, calling them in either order on the same table produces the
same two summary outputs. -/
theorem spec_C10_amended (t : HistTable) :
    (summarize_noaa_data t).2.rows = t.rows ∧
    (summarize_noaa_daily_climatology t).2.rows = t.rows ∧
    (summarize_noaa_data ((summarize_noaa_daily_climatology t).2)).1
        = (summarize_noaa_data t).1 ∧
    (summarize_noaa_daily_climatology ((summarize_noaa_data t).2)).1
        = (summarize_noaa_daily_climatology t).1 :=
  ⟨rfl, rfl, rfl, rfl⟩

/-- A one-record historical table used as concrete input. -/
def histEx : HistTable := normalize_noaa_data [⟨⟨2024, 7, 4⟩, "TMAX", 32⟩]

/-- C10 (counterexample to the claim as stated): the climatology
summarizer does not leave its input table unchanged — it adds the
`month_day` column and retypes the `date` column in place. -/
theorem spec_C10_counterexample :
    (summarize_noaa_daily_climatology histEx).2 ≠ histEx := by decide

/-- A Weatherbit payload holding a single day. -/
def wbOneDay : WBPayload :=
  ⟨[⟨some ⟨2024, 7, 1⟩, some 25, some 15, some 0, some 3⟩]⟩

/-- An Open-Meteo payload holding a single day. -/
def omOneDay : OMPayload :=
  ⟨some ⟨[⟨2024, 7, 1⟩], some [some 20], some [some 10], some [some 0], some [some 5]⟩⟩

/-- The empty dict each forecast fetcher returns on provider failure. -/
def omEmptyPayload : OMPayload := ⟨none⟩

/-- The empty dict for the Weatherbit side. -/
def wbEmptyPayload : WBPayload := ⟨[]⟩

/-- C2: with exactly one raw source empty, `merge_forecasts` does not
return the other source's table — `pd.DataFrame([])` has no columns, so
`pd.merge(..., on="date")` raises `KeyError: 'date'` (in both
directions). -/
theorem spec_C2_bug :
    merge_forecasts omEmptyPayload wbOneDay = .error "KeyError: date" ∧
    merge_forecasts omOneDay wbEmptyPayload = .error "KeyError: date" ∧
    normalize_forecast_open_meteo omEmptyPayload = .ok [] ∧
    normalize_forecast_weatherbit wbEmptyPayload = [] :=
  ⟨rfl, rfl, rfl, rfl⟩

/-- The two historical triples of the spec's end-to-end example. -/
def climExInput : List NoaaRecord :=
  [⟨⟨2024, 7, 4⟩, "TMAX", 32⟩, ⟨⟨2023, 7, 4⟩, "TMAX", 30⟩]

/-- The climatology table computed from the example triples. -/
def climEx : List ClimRow :=
  (summarize_noaa_daily_climatology (normalize_noaa_data climExInput)).1

/-- The wide table the example triples pivot to. -/
theorem normalize_climExInput :
    normalize_noaa_data climExInput =
      ⟨[⟨⟨2023, 7, 4⟩, some 30, none, none, none⟩,
        ⟨⟨2024, 7, 4⟩, some 32, none, none, none⟩], false, false⟩ := by decide

/-- Evaluation of the climatology table on the example triples. -/
theorem climEx_eval :
    climEx = [{ month_day := (7, 4),
                temp_max := { mean := some 31, stdSq := some 2, count := 2 },
                temp_min := { mean := none, stdSq := none, count := 0 },
                precip := { mean := none, stdSq := none, count := 0 },
                wind_max := { mean := none, stdSq := none, count := 0 } }] := by
  have h : climEx
      = (summarize_noaa_daily_climatology (normalize_noaa_data climExInput)).1 := rfl
  rw [h, normalize_climExInput]
  simp only [summarize_noaa_daily_climatology, climCol, colVals, colMean,
    colVariance, allAbsent, monthDay, pivotDates, List.insertionSort,
    List.orderedInsert, mdLE, List.dedup]
  norm_num [List.filter, List.filterMap, allAbsent, monthDay]
  intro hx
  exact absurd hx (by simp)

/-- C8 (counterexample to the claim as stated): on the example input the
`max-temp` std cell of the `07-04` climatology row is the unrounded
sample standard deviation, whose square is exactly `2` — not `1.41`,
whose square is `1.9881`. -/
theorem spec_C8_counterexample :
    climEx.map (fun row => row.temp_max.stdSq) = [some 2] ∧
    ¬ ((141 / 100 : ℚ) ^ 2 = 2) := by
  rw [climEx_eval]
  norm_num

/-- C8 (amended): the example yields exactly one climatology row, keyed
`07-04`, with `max-temp` mean `31.0`, count `2`, and std `√2` (its square
is `2`); rounding `√2` to two places would give `1.41`, but the
climatology summarizer applies no rounding. -/
theorem spec_C8_amended :
    climEx = [{ month_day := (7, 4),
                temp_max := { mean := some 31, stdSq := some 2, count := 2 },
                temp_min := { mean := none, stdSq := none, count := 0 },
                precip := { mean := none, stdSq := none, count := 0 },
                wind_max := { mean := none, stdSq := none, count := 0 } }] ∧
    roundStd 2 = 141 / 100 := by
  refine ⟨climEx_eval, ?_⟩
  have h20000 : ((2 : ℚ) * 10000) = 20000 := by norm_num
  have hfloor : ((2 : ℚ) * 10000).floor.toNat = 20000 := by rw [h20000]; rfl
  have hsqrt : Nat.sqrt 20000 = 141 := by
    have h1 : 141 ≤ Nat.sqrt 20000 := Nat.le_sqrt.mpr (by norm_num)
    have h2 : Nat.sqrt 20000 < 142 := Nat.sqrt_lt.mpr (by norm_num)
    omega
  unfold roundStd sqrtNearest
  rw [hfloor, hsqrt, if_neg (by rw [h20000]; norm_num)]
  norm_num

/-- The running minimum of Python `min(..., key=...)`: the fold result is
the seed or a list element, is no farther than the seed, and is no farther
than any list element. -/
theorem foldl_min_spec (dist : Station → ℚ) :
    ∀ (t : List Station) (b : Station),
      ((t.foldl (fun best s => if dist s < dist best then s else best) b = b ∨
        t.foldl (fun best s => if dist s < dist best then s else best) b ∈ t) ∧
       dist (t.foldl (fun best s => if dist s < dist best then s else best) b) ≤ dist b ∧
       ∀ x ∈ t, dist (t.foldl (fun best s => if dist s < dist best then s else best) b) ≤ dist x) := by
  intro t
  induction t with
  | nil => intro b; refine ⟨Or.inl rfl, le_refl _, by simp⟩
  | cons s t ih =>
    intro b
    rw [List.foldl_cons]
    obtain ⟨hmem, hle, hall⟩ := ih (if dist s < dist b then s else b)
    have hstep : dist (if dist s < dist b then s else b) ≤ dist b := by
      by_cases hc : dist s < dist b
      · rw [if_pos hc]; exact le_of_lt hc
      · rw [if_neg hc]
    have hstep2 : dist (if dist s < dist b then s else b) ≤ dist s := by
      by_cases hc : dist s < dist b
      · rw [if_pos hc]
      · rw [if_neg hc]; exact le_of_not_lt hc
    refine ⟨?_, le_trans hle hstep, ?_⟩
    · rcases hmem with h | h
      · rw [h]
        by_cases hc : dist s < dist b
        · rw [if_pos hc]; exact Or.inr (List.mem_cons_self s t)
        · rw [if_neg hc]; exact Or.inl rfl
      · exact Or.inr (List.mem_cons_of_mem s h)
    · intro x hx
      rcases List.mem_cons.mp hx with h | h
      · rw [h] at *; exact le_trans hle hstep2
      · exact hall x h

/-- Characterization of `minByDist`. -/
theorem minByDist_spec (dist : Station → ℚ) (l : List Station) (s : Station)
    (h : minByDist dist l = some s) : s ∈ l ∧ ∀ x ∈ l, dist s ≤ dist x := by
  cases l with
  | nil => simp [minByDist] at h
  | cons a t =>
    simp only [minByDist, Option.some.injEq] at h
    obtain ⟨hmem, hle, hall⟩ := foldl_min_spec dist t a
    rw [h] at hmem hle hall
    constructor
    · rcases hmem with h1 | h1
      · rw [h1]; exact List.mem_cons_self a t
      · exact List.mem_cons_of_mem a h1
    · intro x hx
      rcases List.mem_cons.mp hx with h1 | h1
      · rw [h1]; exact hle
      · exact hall x h1

/-- C9: station selection considers only stations in the USW
network-quality class and returns the geodesic-nearest one; if no USW
station is returned by the directory, the historical pipeline raises
`ValueError` instead of falling back to a closer non-USW station. -/
theorem spec_C9 (geokm : ℚ × ℚ → ℚ × ℚ → ℚ) (latlon : ℚ × ℚ)
    (stations : List Station) :
    (∀ s, find_nearest_station geokm latlon stations = some s →
        isUSW s = true ∧ s ∈ stations ∧
        ∀ x ∈ stations, isUSW x = true →
          geokm latlon (s.latitude, s.longitude)
            ≤ geokm latlon (x.latitude, x.longitude)) ∧
    ((∀ s ∈ stations, isUSW s = false) →
        get_noaa_10yr_historical_station geokm latlon stations =
          .error "No NOAA station found with data coverage for the location and date range.") ∧
    ((∃ s ∈ stations, isUSW s = true) →
        ∃ s, find_nearest_station geokm latlon stations = some s) := by
  refine ⟨?_, ?_, ?_⟩
  · intro s h
    have hspec := minByDist_spec (fun s => geokm latlon (s.latitude, s.longitude))
      (stations.filter isUSW) s h
    obtain ⟨hmem, hall⟩ := hspec
    have h1 := List.mem_filter.mp hmem
    refine ⟨h1.2, h1.1, ?_⟩
    intro x hx hxu
    exact hall x (List.mem_filter.mpr ⟨hx, hxu⟩)
  · intro h
    have hnil : stations.filter isUSW = [] := by
      refine List.filter_eq_nil_iff.mpr (fun s hs => ?_)
      rw [h s hs]
      simp
    unfold get_noaa_10yr_historical_station find_nearest_station
    rw [hnil]
    rfl
  · intro ⟨s, hs, hu⟩
    have hne : stations.filter isUSW ≠ [] := by
      intro hnil
      have := List.mem_filter.mpr ⟨hs, hu⟩
      rw [hnil] at this
      exact absurd this (List.not_mem_nil s)
    unfold find_nearest_station
    cases hc : stations.filter isUSW with
    | nil => exact absurd hc hne
    | cons a t => exact ⟨_, rfl⟩

/-- The spec's example USW station, 5 km from the query point. -/
def stationUSW : Station := ⟨"GHCND:USW00012345", 40, 75⟩

/-- The spec's example non-USW station, 1 km from the query point. -/
def stationNonUSW : Station := ⟨"GHCND:USC00054321", 41, 74⟩

/-- A concrete geodesic table for the two example stations. -/
def exampleGeokm : ℚ × ℚ → ℚ × ℚ → ℚ :=
  fun _ p => if p = ((40 : ℚ), (75 : ℚ)) then 5 else 1

/-- C9 witness: on the spec's example directory, the selector returns the
USW station 5 km away, not the non-USW station 1 km away. -/
theorem spec_C9_witness :
    isUSW stationUSW = true ∧
    stationUSW ∈ [stationNonUSW, stationUSW] ∧
    ∀ x ∈ [stationNonUSW, stationUSW], isUSW x = true →
      exampleGeokm (39, 74) (stationUSW.latitude, stationUSW.longitude)
        ≤ exampleGeokm (39, 74) (x.latitude, x.longitude) :=
  (spec_C9 exampleGeokm (39, 74) [stationNonUSW, stationUSW]).1
    stationUSW (by decide)

/-! ## Pivot lemmas (`wrangle.normalize_noaa_data`) -/

/-- The dates of the pivoted table are exactly its sorted distinct index. -/
theorem rows_map_date (rs : List NoaaRecord) :
    (normalize_noaa_data rs).rows.map (fun w => w.date) = pivotDates rs := by
  unfold normalize_noaa_data
  rw [List.map_map]
  exact (List.map_congr_left (fun d _ => rfl)).trans (List.map_id _)

/-- The pivot index has no duplicate dates. -/
theorem pivotDates_nodup (rs : List NoaaRecord) : (pivotDates rs).Nodup :=
  (List.perm_insertionSort Date.le _).nodup_iff.mpr
    (List.nodup_dedup (rs.map (fun r => r.date)))

/-- A date occurs in the pivot index exactly when some record carries it. -/
theorem mem_pivotDates (rs : List NoaaRecord) (d : Date) :
    d ∈ pivotDates rs ↔ d ∈ rs.map (fun r => r.date) := by
  unfold pivotDates
  rw [List.mem_insertionSort, List.mem_dedup]

/-- Two record lists carrying the same set of dates pivot to the same
(sorted, distinct) index. -/
theorem pivotDates_eq_of_toFinset (rs1 rs2 : List NoaaRecord)
    (h : (rs1.map (fun r => r.date)).toFinset = (rs2.map (fun r => r.date)).toFinset) :
    pivotDates rs1 = pivotDates rs2 := by
  refine List.eq_of_perm_of_sorted ?_ (List.sorted_insertionSort Date.le _)
    (List.sorted_insertionSort Date.le _)
  have pd : List.Perm ((rs1.map (fun r => r.date)).dedup)
      ((rs2.map (fun r => r.date)).dedup) := by
    refine List.perm_of_nodup_nodup_toFinset_eq (List.nodup_dedup _)
      (List.nodup_dedup _) ?_
    ext a
    simp only [List.mem_toFinset, List.mem_dedup]
    rw [← List.mem_toFinset, h, List.mem_toFinset]
  exact (List.perm_insertionSort Date.le _).trans
    (pd.trans (List.perm_insertionSort Date.le _).symm)

/-- Inserting a record whose `(date, datatype)` pair already occurs
earlier in the list leaves every pivot cell unchanged: the pivot keeps the
first-encountered value. -/
theorem firstVal_middle (l1 l2 : List NoaaRecord) (r' : NoaaRecord)
    (d : Date) (t : String)
    (hex : ∃ r ∈ l1, r.date = r'.date ∧ r.datatype = r'.datatype) :
    firstVal (l1 ++ r' :: l2) d t = firstVal (l1 ++ l2) d t := by
  unfold firstVal
  rw [List.filter_append, List.filter_append, List.filter_cons]
  by_cases hc : r'.date = d ∧ r'.datatype = t
  · obtain ⟨r, hr, hdd, htt⟩ := hex
    have hrmem : r ∈ l1.filter (fun x => decide (x.date = d ∧ x.datatype = t)) := by
      refine List.mem_filter.mpr ⟨hr, ?_⟩
      simp only [decide_eq_true_eq]
      exact ⟨hdd.trans hc.1, htt.trans hc.2⟩
    have hne : l1.filter (fun x => decide (x.date = d ∧ x.datatype = t)) ≠ [] :=
      List.ne_nil_of_mem hrmem
    rw [List.head?_append_of_ne_nil _ hne, List.head?_append_of_ne_nil _ hne]
  · rw [if_neg (by simpa using hc)]

/-- C4: pivoting keeps the first-encountered value for each
`(date, variable)` cell — a record whose pair already occurred is silently
discarded — and the output has exactly one row per distinct input date. -/
theorem spec_C4 (l1 l2 : List NoaaRecord) (r r' : NoaaRecord)
    (hr : r ∈ l1) (hd : r.date = r'.date) (ht : r.datatype = r'.datatype) :
    normalize_noaa_data (l1 ++ r' :: l2) = normalize_noaa_data (l1 ++ l2) ∧
    ((normalize_noaa_data (l1 ++ r' :: l2)).rows.map (fun w => w.date)).Nodup ∧
    (∀ d, d ∈ (normalize_noaa_data (l1 ++ r' :: l2)).rows.map (fun w => w.date) ↔
        d ∈ (l1 ++ r' :: l2).map (fun x => x.date)) := by
  have hex : ∃ x ∈ l1, x.date = r'.date ∧ x.datatype = r'.datatype :=
    ⟨r, hr, hd, ht⟩
  have hdates : pivotDates (l1 ++ r' :: l2) = pivotDates (l1 ++ l2) := by
    refine pivotDates_eq_of_toFinset _ _ ?_
    ext a
    simp only [List.mem_toFinset, List.mem_map, List.mem_append, List.mem_cons]
    constructor
    · rintro ⟨x, hx | hx | hx, hax⟩
      · exact ⟨x, Or.inl hx, hax⟩
      · exact ⟨r, Or.inl hr, by rw [hd, ← hx, hax]⟩
      · exact ⟨x, Or.inr hx, hax⟩
    · rintro ⟨x, hx | hx, hax⟩
      · exact ⟨x, Or.inl hx, hax⟩
      · exact ⟨x, Or.inr (Or.inr hx), hax⟩
  refine ⟨?_, ?_, ?_⟩
  · unfold normalize_noaa_data
    rw [hdates]
    have hmap : ∀ d ∈ pivotDates (l1 ++ l2),
        ({ date := d, temp_max := firstVal (l1 ++ r' :: l2) d "TMAX",
           temp_min := firstVal (l1 ++ r' :: l2) d "TMIN",
           precip := firstVal (l1 ++ r' :: l2) d "PRCP",
           wind_max := firstVal (l1 ++ r' :: l2) d "AWND" } : NoaaRow)
        = { date := d, temp_max := firstVal (l1 ++ l2) d "TMAX",
            temp_min := firstVal (l1 ++ l2) d "TMIN",
            precip := firstVal (l1 ++ l2) d "PRCP",
            wind_max := firstVal (l1 ++ l2) d "AWND" } := by
      intro d _
      rw [firstVal_middle _ _ _ _ _ hex, firstVal_middle _ _ _ _ _ hex,
          firstVal_middle _ _ _ _ _ hex, firstVal_middle _ _ _ _ _ hex]
    rw [List.map_congr_left hmap]
  · rw [rows_map_date]
    exact pivotDates_nodup _
  · intro d
    rw [rows_map_date, mem_pivotDates]

/-- A concrete historical record. -/
def histRec : NoaaRecord := ⟨⟨2024, 7, 4⟩, "TMAX", 32⟩

/-- A later record with the same `(date, datatype)` pair. -/
def dupRec : NoaaRecord := ⟨⟨2024, 7, 4⟩, "TMAX", 99⟩

/-- C4 witness: appending a duplicate `(date, datatype)` record changes
nothing; the first value `32` is kept, the later `99` silently dropped. -/
theorem spec_C4_witness :
    normalize_noaa_data ([histRec] ++ dupRec :: [])
      = normalize_noaa_data ([histRec] ++ []) ∧
    ((normalize_noaa_data ([histRec] ++ dupRec :: [])).rows.map
        (fun w => w.date)).Nodup ∧
    (∀ d, d ∈ (normalize_noaa_data ([histRec] ++ dupRec :: [])).rows.map
          (fun w => w.date) ↔
        d ∈ ([histRec] ++ dupRec :: []).map (fun x => x.date)) :=
  spec_C4 [histRec] [] histRec dupRec (List.mem_singleton.mpr rfl) rfl rfl

/-! ## C3: the unit normalizer on malformed payloads -/

/-- An Open-Meteo payload whose `temperature_2m_max` array is shorter than
its `time` array. -/
def omShortPayload : OMPayload :=
  ⟨some ⟨[⟨2024, 7, 1⟩, ⟨2024, 7, 2⟩], some [some 30], none, none, none⟩⟩

/-- C3 (counterexample to the claim as stated): a present variable array
shorter than the time array makes the normalizer raise `IndexError`
(`daily.get(key, ...)[i]` indexes past the end of the present array). -/
theorem spec_C3_counterexample :
    normalize_forecast_open_meteo omShortPayload = .error "IndexError" := rfl

/-- The cell the normalizer produces at index `i` when every present array
is long enough: the array element, or absent when the key is missing. -/
def omExpectedCell (arr : Option (List (Option ℚ))) (i : ℕ) : Option ℚ :=
  match arr with
  | none => none
  | some l => (l.get? i).getD none

/-- `omIndex` succeeds whenever the array, if present, is long enough. -/
theorem omIndex_ok (arr : Option (List (Option ℚ))) (i n : ℕ)
    (hlen : ∀ l, arr = some l → n ≤ l.length) (hi : i < n) :
    omIndex arr i = .ok (omExpectedCell arr i) := by
  cases arr with
  | none => rfl
  | some l =>
    have hl : i < l.length := lt_of_lt_of_le hi (hlen l rfl)
    simp only [omIndex, omExpectedCell]
    rw [List.get?_eq_get hl]
    rfl

/-- `mapM` into `Except` succeeds pointwise. -/
theorem mapM_ok_of_forall {α β : Type} (l : List α) (f : α → Except String β)
    (g : α → β) (h : ∀ a ∈ l, f a = .ok (g a)) : l.mapM f = .ok (l.map g) := by
  induction l with
  | nil => rfl
  | cons a t ih =>
    rw [List.mapM_cons, h a (List.mem_cons_self a t),
      ih (fun x hx => h x (List.mem_cons_of_mem a hx))]
    rfl

/-- C3 (amended): the normalizer never raises as long as each present
variable array is at least as long as the time array — in particular a
variable key absent from the payload never raises and yields an absent
value for every date of the response — and an empty response yields an
empty table. (A present array shorter than the time array does raise.)
The Weatherbit branch never raises on any payload. -/
theorem spec_C3_amended (p : OMPayload)
    (h1 : ∀ l, (omDailyOf p).temperature_2m_max = some l →
        (omDailyOf p).time.length ≤ l.length)
    (h2 : ∀ l, (omDailyOf p).temperature_2m_min = some l →
        (omDailyOf p).time.length ≤ l.length)
    (h3 : ∀ l, (omDailyOf p).precipitation_sum = some l →
        (omDailyOf p).time.length ≤ l.length)
    (h4 : ∀ l, (omDailyOf p).windspeed_10m_max = some l →
        (omDailyOf p).time.length ≤ l.length) :
    (∃ rows, normalize_forecast_open_meteo p = .ok rows ∧
      rows.length = (omDailyOf p).time.length ∧
      ((omDailyOf p).temperature_2m_max = none → ∀ w ∈ rows, w.temp_max = none) ∧
      ((omDailyOf p).temperature_2m_min = none → ∀ w ∈ rows, w.temp_min = none) ∧
      ((omDailyOf p).precipitation_sum = none → ∀ w ∈ rows, w.precip = none) ∧
      ((omDailyOf p).windspeed_10m_max = none → ∀ w ∈ rows, w.wind_max = none) ∧
      ((omDailyOf p).time = [] → rows = [])) ∧
    (∀ wb : WBPayload, (normalize_forecast_weatherbit wb).length = wb.data.length) := by
  constructor
  · refine ⟨(omDailyOf p).time.enum.map (fun x =>
      { date := x.2,
        temp_max := omExpectedCell (omDailyOf p).temperature_2m_max x.1,
        temp_min := omExpectedCell (omDailyOf p).temperature_2m_min x.1,
        precip := omExpectedCell (omDailyOf p).precipitation_sum x.1,
        wind_max := omExpectedCell (omDailyOf p).windspeed_10m_max x.1 }), ?_, ?_, ?_, ?_, ?_, ?_, ?_⟩
    · unfold normalize_forecast_open_meteo
      refine mapM_ok_of_forall _ _ _ (fun x hx => ?_)
      have hi : x.1 < (omDailyOf p).time.length := by
        obtain ⟨i, d⟩ := x
        exact (List.mem_enum hx).1
      rw [omIndex_ok _ _ _ h1 hi, omIndex_ok _ _ _ h2 hi,
        omIndex_ok _ _ _ h3 hi, omIndex_ok _ _ _ h4 hi]
      rfl
    · rw [List.length_map, List.enum_length]
    · intro ha w hw
      obtain ⟨x, _, hxw⟩ := List.mem_map.mp hw
      rw [← hxw]
      simp [ha, omExpectedCell]
    · intro ha w hw
      obtain ⟨x, _, hxw⟩ := List.mem_map.mp hw
      rw [← hxw]
      simp [ha, omExpectedCell]
    · intro ha w hw
      obtain ⟨x, _, hxw⟩ := List.mem_map.mp hw
      rw [← hxw]
      simp [ha, omExpectedCell]
    · intro ha w hw
      obtain ⟨x, _, hxw⟩ := List.mem_map.mp hw
      rw [← hxw]
      simp [ha, omExpectedCell]
    · intro ht
      rw [ht]
      rfl
  · intro wb
    unfold normalize_forecast_weatherbit
    rw [List.length_map]

/-- C3 witness: the amended statement applied to a concrete well-formed
one-day payload. -/
theorem spec_C3_witness :
    (∃ rows, normalize_forecast_open_meteo omOneDay = .ok rows ∧
      rows.length = (omDailyOf omOneDay).time.length ∧
      ((omDailyOf omOneDay).temperature_2m_max = none → ∀ w ∈ rows, w.temp_max = none) ∧
      ((omDailyOf omOneDay).temperature_2m_min = none → ∀ w ∈ rows, w.temp_min = none) ∧
      ((omDailyOf omOneDay).precipitation_sum = none → ∀ w ∈ rows, w.precip = none) ∧
      ((omDailyOf omOneDay).windspeed_10m_max = none → ∀ w ∈ rows, w.wind_max = none) ∧
      ((omDailyOf omOneDay).time = [] → rows = [])) ∧
    (∀ wb : WBPayload, (normalize_forecast_weatherbit wb).length = wb.data.length) :=
  spec_C3_amended omOneDay
    (by intro l hl; injection hl with h; subst h; decide)
    (by intro l hl; injection hl with h; subst h; decide)
    (by intro l hl; injection hl with h; subst h; decide)
    (by intro l hl; injection hl with h; subst h; decide)

/-! ## Outer-join lemmas (`wrangle.merge_forecasts`) -/

/-- A list whose keys are distinct has at most one element with any given
key. -/
theorem length_filter_eq_le_one {α β : Type} [DecidableEq β] (f : α → β)
    (l : List α) (k : β) (h : (l.map f).Nodup) :
    (l.filter (fun x => f x = k)).length ≤ 1 := by
  induction l with
  | nil => simp
  | cons x t ih =>
    rw [List.map_cons, List.nodup_cons] at h
    obtain ⟨hx, ht⟩ := h
    rw [List.filter_cons]
    by_cases hc : f x = k
    · rw [if_pos (by simpa using hc)]
      have hnil : t.filter (fun y => decide (f y = k)) = [] := by
        refine List.filter_eq_nil_iff.mpr (fun y hy => ?_)
        simp only [decide_eq_true_eq]
        intro hyk
        exact hx (hc ▸ hyk ▸ List.mem_map_of_mem f hy)
      rw [hnil]
      simp
    · rw [if_neg (by simpa using hc)]
      exact ih ht

/-- A `flatMap` each of whose pieces is a singleton is a `map`. -/
theorem flatMap_eq_map_of_singleton {α β : Type} (l : List α) (g : α → List β)
    (f : α → β) (h : ∀ a ∈ l, g a = [f a]) : l.flatMap g = l.map f := by
  induction l with
  | nil => rfl
  | cons a t ih =>
    rw [List.flatMap_cons, h a (List.mem_cons_self a t),
      ih (fun x hx => h x (List.mem_cons_of_mem a hx)), List.map_cons]
    rfl

/-- The join-key column of the outer join: the left keys in order,
followed by the keys of the unmatched right rows. Needs the right table's
keys to be distinct, so a matched left row pairs with exactly one right
row. -/
theorem joinRows_map_date (l : List OMRow) (r : List WBRow)
    (hr : (r.map (fun b => b.date)).Nodup) :
    (joinRows l r).map (fun x => x.date)
      = l.map (fun a => some a.date)
        ++ (r.filter (fun b => ¬ l.any (fun a => some a.date = b.date))).map
            (fun b => b.date) := by
  unfold joinRows
  rw [List.map_append]
  congr 1
  · rw [List.map_flatMap]
    refine flatMap_eq_map_of_singleton _ _ _ (fun a _ => ?_)
    rcases hms : r.filter (fun b => b.date = some a.date) with _ | ⟨b, bs⟩
    · rw [hms]
      simp [mkLeft]
    · have hlen := length_filter_eq_le_one (fun b => b.date) r (some a.date) hr
      rw [hms] at hlen
      simp only [List.length_cons] at hlen
      have hbs : bs = [] := List.eq_nil_of_length_eq_zero (by omega)
      subst hbs
      have hbdate : b.date = some a.date := by
        have hbmem : b ∈ r.filter (fun x => decide (x.date = some a.date)) := by
          rw [hms]
          exact List.mem_singleton.mpr rfl
        have := (List.mem_filter.mp hbmem).2
        simpa using this
      rw [hms]
      simp [mkBoth, hbdate]
  · rw [List.map_map]
    exact List.map_congr_left (fun b _ => rfl)

/-- C1: on normalized tables whose date columns are each
duplicate-free, the merger produces every date of either input exactly
once — the row count is the size of the union of the two date sets — and
the output is sorted ascending by date. -/
theorem spec_C1 (l : List OMRow) (r : List WBRow)
    (hl : (l.map (fun a => some a.date)).Nodup)
    (hr : (r.map (fun b => b.date)).Nodup) :
    ((mergeTables l r).map (fun x => x.date)).Nodup ∧
    (∀ d, d ∈ (mergeTables l r).map (fun x => x.date) ↔
        d ∈ l.map (fun a => some a.date) ∨ d ∈ r.map (fun b => b.date)) ∧
    (mergeTables l r).length =
      ((l.map (fun a => some a.date)).toFinset
        ∪ (r.map (fun b => b.date)).toFinset).card ∧
    List.Sorted odateLE ((mergeTables l r).map (fun x => x.date)) := by
  have hperm : List.Perm ((mergeTables l r).map (fun x => x.date))
      ((joinRows l r).map (fun x => x.date)) :=
    (List.perm_insertionSort mergedLE (joinRows l r)).map (fun x => x.date)
  rw [joinRows_map_date l r hr] at hperm
  -- membership in the unmatched-right block
  have hmemB : ∀ d, d ∈ (r.filter
        (fun b => ¬ l.any (fun a => some a.date = b.date))).map (fun b => b.date)
      ↔ d ∈ r.map (fun b => b.date) ∧ d ∉ l.map (fun a => some a.date) := by
    intro d
    constructor
    · intro hd
      obtain ⟨b, hbf, hbd⟩ := List.mem_map.mp hd
      obtain ⟨hbr, hpred⟩ := List.mem_filter.mp hbf
      rw [decide_eq_true_eq] at hpred
      refine ⟨List.mem_map.mpr ⟨b, hbr, hbd⟩, fun hdl => ?_⟩
      obtain ⟨a, hal, had⟩ := List.mem_map.mp hdl
      exact hpred (List.any_eq_true.mpr
        ⟨a, hal, decide_eq_true (had.trans hbd.symm)⟩)
    · rintro ⟨hdr, hnd⟩
      obtain ⟨b, hbr, hbd⟩ := List.mem_map.mp hdr
      refine List.mem_map.mpr ⟨b, List.mem_filter.mpr ⟨hbr, ?_⟩, hbd⟩
      rw [decide_eq_true_eq]
      intro hany
      obtain ⟨a, hal, hab⟩ := List.any_eq_true.mp hany
      rw [decide_eq_true_eq] at hab
      exact hnd (List.mem_map.mpr ⟨a, hal, hab.trans hbd⟩)
  have hnodup : (l.map (fun a => some a.date)
      ++ (r.filter (fun b => ¬ l.any (fun a => some a.date = b.date))).map
          (fun b => b.date)).Nodup := by
    refine List.Nodup.append hl ?_ ?_
    · exact ((List.filter_sublist r).map (fun b => b.date)).nodup hr
    · intro d hdl hdB
      exact ((hmemB d).mp hdB).2 hdl
  have hmem : ∀ d, d ∈ (mergeTables l r).map (fun x => x.date) ↔
      d ∈ l.map (fun a => some a.date) ∨ d ∈ r.map (fun b => b.date) := by
    intro d
    rw [hperm.mem_iff, List.mem_append, hmemB d]
    by_cases hdl : d ∈ l.map (fun a => some a.date) <;> tauto
  refine ⟨hperm.nodup_iff.mpr hnodup, hmem, ?_, ?_⟩
  · have hnd : ((mergeTables l r).map (fun x => x.date)).Nodup :=
      hperm.nodup_iff.mpr hnodup
    have hset : ((mergeTables l r).map (fun x => x.date)).toFinset =
        (l.map (fun a => some a.date)).toFinset
          ∪ (r.map (fun b => b.date)).toFinset := by
      ext d
      simp only [List.mem_toFinset, Finset.mem_union]
      exact hmem d
    calc (mergeTables l r).length
        = ((mergeTables l r).map (fun x => x.date)).length :=
          (List.length_map _ _).symm
      _ = ((mergeTables l r).map (fun x => x.date)).toFinset.card :=
          (List.toFinset_card_of_nodup hnd).symm
      _ = _ := by rw [hset]
  · have hs : List.Sorted mergedLE (mergeTables l r) :=
      List.sorted_insertionSort mergedLE (joinRows l r)
    exact List.pairwise_map.mpr hs

/-- A concrete normalized Open-Meteo row. -/
def omRowEx : OMRow := ⟨⟨2024, 7, 1⟩, some 20, some 10, some 0, some 5⟩

/-- A concrete normalized Weatherbit row with a different date. -/
def wbRowEx : WBRow := ⟨some ⟨2024, 7, 2⟩, some 25, some 15, some 0, some 3⟩

/-- C1 witness: the merge invariants instantiated on concrete one-row
tables with distinct dates. -/
theorem spec_C1_witness :
    (([omRowEx].map (fun a => some a.date)).Nodup ∧
     ([wbRowEx].map (fun b => b.date)).Nodup) ∧
    ((mergeTables [omRowEx] [wbRowEx]).map (fun x => x.date)).Nodup ∧
    (∀ d, d ∈ (mergeTables [omRowEx] [wbRowEx]).map (fun x => x.date) ↔
        d ∈ [omRowEx].map (fun a => some a.date) ∨
        d ∈ [wbRowEx].map (fun b => b.date)) ∧
    (mergeTables [omRowEx] [wbRowEx]).length =
      (([omRowEx].map (fun a => some a.date)).toFinset
        ∪ ([wbRowEx].map (fun b => b.date)).toFinset).card ∧
    List.Sorted odateLE ((mergeTables [omRowEx] [wbRowEx]).map (fun x => x.date)) :=
  ⟨⟨by decide, by decide⟩, spec_C1 [omRowEx] [wbRowEx] (by decide) (by decide)⟩

/-! ## Round-trip lemmas (C5) -/

/-- The rows of the pivoted table, explicitly. -/
theorem normalize_rows (rs : List NoaaRecord) :
    (normalize_noaa_data rs).rows = (pivotDates rs).map (fun d =>
      { date := d, temp_max := firstVal rs d "TMAX",
        temp_min := firstVal rs d "TMIN",
        precip := firstVal rs d "PRCP",
        wind_max := firstVal rs d "AWND" }) := rfl

/-- Membership in the long-form triples of one wide row. -/
theorem mem_rowRecords (w : NoaaRow) (rec : NoaaRecord) :
    rec ∈ rowRecords w ↔
      (rec.date = w.date ∧
        ((rec.datatype = "TMAX" ∧ w.temp_max = some rec.value) ∨
         (rec.datatype = "TMIN" ∧ w.temp_min = some rec.value) ∨
         (rec.datatype = "PRCP" ∧ w.precip = some rec.value) ∨
         (rec.datatype = "AWND" ∧ w.wind_max = some rec.value))) := by
  rcases w with ⟨d, tmax, tmin, pr, wm⟩
  rcases rec with ⟨rd, rt, rv⟩
  cases tmax <;> cases tmin <;> cases pr <;> cases wm <;>
    · simp only [rowRecords, List.mem_append, List.mem_singleton,
        List.not_mem_nil, NoaaRecord.mk.injEq, or_false, false_or]
      constructor
      · intro h
        first
        | exact absurd h not_false
        | (rcases h with ⟨h1, h2, h3⟩ | h <;> try tauto)
      · intro ⟨h1, h2⟩
        rcases h2 with ⟨ht, hv⟩ | ⟨ht, hv⟩ | ⟨ht, hv⟩ | ⟨ht, hv⟩ <;>
          simp_all

/-- Each wide row flattens to duplicate-free triples. -/
theorem nodup_rowRecords (w : NoaaRow) : (rowRecords w).Nodup := by
  rcases w with ⟨d, tmax, tmin, pr, wm⟩
  cases tmax <;> cases tmin <;> cases pr <;> cases wm <;>
    simp [rowRecords, NoaaRecord.mk.injEq]

/-- Every triple of a row carries the row's date. -/
theorem rowRecords_date (w : NoaaRow) (rec : NoaaRecord)
    (h : rec ∈ rowRecords w) : rec.date = w.date :=
  ((mem_rowRecords w rec).mp h).1

/-- With duplicate-free `(date, datatype)` pairs, a pivot cell holds `v`
exactly when the input contains the corresponding triple. -/
theorem firstVal_eq_some_iff (rs : List NoaaRecord)
    (hnd : (rs.map (fun r => (r.date, r.datatype))).Nodup)
    (d : Date) (t : String) (v : ℚ) :
    firstVal rs d t = some v ↔ ({ date := d, datatype := t, value := v } : NoaaRecord) ∈ rs := by
  unfold firstVal
  constructor
  · intro h
    obtain ⟨r0, hr0, hv⟩ := Option.map_eq_some'.mp h
    have hr0f : r0 ∈ rs.filter (fun r => decide (r.date = d ∧ r.datatype = t)) :=
      List.mem_of_mem_head? hr0
    obtain ⟨hr0s, hpred⟩ := List.mem_filter.mp hr0f
    rw [decide_eq_true_eq] at hpred
    obtain ⟨hd0, ht0⟩ := hpred
    rcases r0 with ⟨r0d, r0t, r0v⟩
    simp only at hd0 ht0 hv
    rw [← hd0, ← ht0, ← hv]
    exact hr0s
  · intro h
    have hmem : ({ date := d, datatype := t, value := v } : NoaaRecord)
        ∈ rs.filter (fun r => decide (r.date = d ∧ r.datatype = t)) :=
      List.mem_filter.mpr ⟨h, by simp⟩
    rcases hhead : (rs.filter (fun r => decide (r.date = d ∧ r.datatype = t))).head? with _ | r0
    · rw [List.head?_eq_none_iff] at hhead
      rw [hhead] at hmem
      exact absurd hmem (List.not_mem_nil _)
    · have hr0f := List.mem_of_mem_head? hhead
      obtain ⟨hr0s, hpred⟩ := List.mem_filter.mp hr0f
      rw [decide_eq_true_eq] at hpred
      have heq : r0 = { date := d, datatype := t, value := v } := by
        refine List.inj_on_of_nodup_map hnd hr0s h ?_
        simp [hpred.1, hpred.2]
      rw [hhead, heq]
      rfl

/-- C5: with duplicate-free `(date, variable)` pairs over the canonical
datatype vocabulary, re-flattening the pivoted table recovers exactly the
original triples (as a permutation: nothing lost, nothing invented). -/
theorem spec_C5 (rs : List NoaaRecord)
    (hvocab : ∀ rec ∈ rs, rec.datatype = "TMAX" ∨ rec.datatype = "TMIN" ∨
        rec.datatype = "PRCP" ∨ rec.datatype = "AWND")
    (hnd : (rs.map (fun r => (r.date, r.datatype))).Nodup) :
    List.Perm (flattenWide (normalize_noaa_data rs).rows) rs := by
  refine List.perm_of_nodup_nodup_toFinset_eq ?_ (List.Nodup.of_map _ hnd) ?_
  · unfold flattenWide
    refine List.nodup_flatMap.mpr ⟨fun w _ => nodup_rowRecords w, ?_⟩
    have hdates : ((normalize_noaa_data rs).rows.map (fun w => w.date)).Nodup := by
      rw [rows_map_date]
      exact pivotDates_nodup rs
    have hpw : List.Pairwise (fun w1 w2 : NoaaRow => w1.date ≠ w2.date)
        (normalize_noaa_data rs).rows := List.pairwise_map.mp hdates
    refine hpw.imp ?_
    intro w1 w2 hne rec h1 h2
    exact hne ((rowRecords_date _ _ h1).symm.trans (rowRecords_date _ _ h2))
  · ext rec
    simp only [List.mem_toFinset]
    unfold flattenWide
    rw [List.mem_flatMap]
    constructor
    · rintro ⟨w, hw, hrecw⟩
      rw [normalize_rows] at hw
      obtain ⟨d, _, hwd⟩ := List.mem_map.mp hw
      obtain ⟨hdate, hcases⟩ := (mem_rowRecords w rec).mp hrecw
      rcases rec with ⟨rd, rt, rv⟩
      simp only at hdate hcases
      rcases hcases with ⟨ht, hc⟩ | ⟨ht, hc⟩ | ⟨ht, hc⟩ | ⟨ht, hc⟩ <;>
        · subst ht
          rw [← hwd] at hc hdate
          simp only at hc hdate
          subst hdate
          exact (firstVal_eq_some_iff rs hnd _ _ rv).mp hc
    · intro h
      have hdmem : rec.date ∈ pivotDates rs :=
        (mem_pivotDates rs rec.date).mpr (List.mem_map_of_mem _ h)
      refine ⟨({ date := rec.date,
                 temp_max := firstVal rs rec.date "TMAX",
                 temp_min := firstVal rs rec.date "TMIN",
                 precip := firstVal rs rec.date "PRCP",
                 wind_max := firstVal rs rec.date "AWND" } : NoaaRow), ?_, ?_⟩
      · rw [normalize_rows]
        exact List.mem_map_of_mem _ hdmem
      · rw [mem_rowRecords]
        refine ⟨rfl, ?_⟩
        rcases hvocab rec h with ht | ht | ht | ht
        · refine Or.inl ⟨ht, ?_⟩
          simp only
          rw [firstVal_eq_some_iff rs hnd]
          rcases rec with ⟨rd, rt, rv⟩
          rw [← ht]
          exact h
        · refine Or.inr (Or.inl ⟨ht, ?_⟩)
          simp only
          rw [firstVal_eq_some_iff rs hnd]
          rcases rec with ⟨rd, rt, rv⟩
          rw [← ht]
          exact h
        · refine Or.inr (Or.inr (Or.inl ⟨ht, ?_⟩))
          simp only
          rw [firstVal_eq_some_iff rs hnd]
          rcases rec with ⟨rd, rt, rv⟩
          rw [← ht]
          exact h
        · refine Or.inr (Or.inr (Or.inr ⟨ht, ?_⟩))
          simp only
          rw [firstVal_eq_some_iff rs hnd]
          rcases rec with ⟨rd, rt, rv⟩
          rw [← ht]
          exact h

/-- C5 witness: the round trip on the concrete example triples. -/
theorem spec_C5_witness :
    (∀ rec ∈ climExInput, rec.datatype = "TMAX" ∨ rec.datatype = "TMIN" ∨
        rec.datatype = "PRCP" ∨ rec.datatype = "AWND") ∧
    (climExInput.map (fun r => (r.date, r.datatype))).Nodup ∧
    List.Perm (flattenWide (normalize_noaa_data climExInput).rows) climExInput :=
  ⟨by decide, by decide, spec_C5 climExInput (by decide) (by decide)⟩

/-! ## Calendar lemmas (C7) -/

/-- Month lengths of a non-leap year. -/
def nonleapDays (m : ℕ) : ℕ := daysInMonth 1 m

/-- The successor of a month-day key in a non-leap year. -/
def nlNext (md : ℕ × ℕ) : ℕ × ℕ :=
  if md.2 < nonleapDays md.1 then (md.1, md.2 + 1)
  else if md.1 < 12 then (md.1 + 1, 1)
  else (1, 1)

/-- Every month has at least one day. -/
theorem daysInMonth_pos (y m : ℕ) : 1 ≤ daysInMonth y m := by
  unfold daysInMonth
  split_ifs <;> omega

/-- Outside February the month length does not depend on the year. -/
theorem daysInMonth_ne_two (y m : ℕ) (hm : m ≠ 2) :
    daysInMonth y m = nonleapDays m := by
  unfold nonleapDays daysInMonth
  rw [if_neg hm, if_neg hm]

/-- The successor of a valid date is valid. -/
theorem valid_nextDay (d : Date) (h : ValidDate d) : ValidDate d.nextDay := by
  obtain ⟨h1, h2, h3, h4⟩ := h
  unfold Date.nextDay
  by_cases hlt : d.day < daysInMonth d.year d.month
  · rw [if_pos hlt]
    exact ⟨h1, h2, Nat.succ_le_succ (Nat.zero_le _), hlt⟩
  · rw [if_neg hlt]
    by_cases hm12 : d.month < 12
    · rw [if_pos hm12]
      exact ⟨Nat.succ_le_succ (Nat.zero_le _), hm12, le_refl 1,
        daysInMonth_pos d.year (d.month + 1)⟩
    · rw [if_neg hm12]
      exact ⟨le_refl 1, show (1 : ℕ) ≤ 12 by omega, le_refl 1,
        daysInMonth_pos (d.year + 1) 1⟩

/-- Shifting a valid date by any number of days stays valid. -/
theorem valid_addDays (n : ℕ) : ∀ d : Date, ValidDate d → ValidDate (addDays d n) := by
  induction n with
  | zero => intro d h; exact h
  | succ n ih => intro d h; exact ih d.nextDay (valid_nextDay d h)

/-- `addDays` unfolded from the right. -/
theorem addDays_succ (n : ℕ) : ∀ d : Date, addDays d (n + 1) = (addDays d n).nextDay := by
  induction n with
  | zero => intro d; rfl
  | succ n ih => intro d; exact ih d.nextDay

/-- One calendar step through the month-day keys: the usual case follows
the non-leap successor; the only exception is Feb 28 of a leap year, which
steps to Feb 29. -/
theorem monthDay_nextDay (d : Date) (h : ValidDate d) :
    monthDay d.nextDay = nlNext (monthDay d) ∨
    (isLeap d.year = true ∧ monthDay d = (2, 28) ∧ monthDay d.nextDay = (2, 29)) := by
  obtain ⟨h1, h2, h3, h4⟩ := h
  by_cases hm : d.month = 2
  · by_cases hl : isLeap d.year = true
    · have hdim : daysInMonth d.year d.month = 29 := by
        unfold daysInMonth
        rw [if_pos hm, if_pos hl]
      have hnl : nonleapDays d.month = 28 := by rw [hm]; rfl
      by_cases hd28 : d.day < 28
      · left
        unfold Date.nextDay
        rw [hdim, if_pos (by omega)]
        unfold monthDay nlNext
        simp only
        rw [hnl, if_pos hd28]
      · by_cases hde : d.day = 28
        · right
          refine ⟨hl, by unfold monthDay; rw [hm, hde], ?_⟩
          unfold Date.nextDay
          rw [hdim, if_pos (by omega)]
          unfold monthDay
          simp only
          rw [hm, hde]
        · have hd29 : d.day = 29 := by rw [hdim] at h4; omega
          left
          unfold Date.nextDay
          rw [hdim, if_neg (by omega)]
          rw [if_pos (by omega)]
          unfold monthDay nlNext
          simp only
          rw [hnl, if_neg (by omega), if_pos (by omega), hm]
    · have hdim : daysInMonth d.year d.month = 28 := by
        unfold daysInMonth
        rw [if_pos hm, if_neg hl]
      have hnl : nonleapDays d.month = 28 := by rw [hm]; rfl
      left
      by_cases hd28 : d.day < 28
      · unfold Date.nextDay
        rw [hdim, if_pos hd28]
        unfold monthDay nlNext
        simp only
        rw [hnl, if_pos hd28]
      · have hde : d.day = 28 := by rw [hdim] at h4; omega
        unfold Date.nextDay
        rw [hdim, if_neg (by omega), if_pos (by omega)]
        unfold monthDay nlNext
        simp only
        rw [hnl, if_neg (by omega), if_pos (by omega), hm]
  · left
    have hdim := daysInMonth_ne_two d.year d.month hm
    unfold Date.nextDay
    rw [hdim]
    unfold monthDay nlNext
    simp only
    by_cases hlt : d.day < nonleapDays d.month
    · rw [if_pos hlt, if_pos hlt]
    · rw [if_neg hlt, if_neg hlt]
      by_cases hm12 : d.month < 12
      · rw [if_pos hm12, if_pos hm12]
      · rw [if_neg hm12, if_neg hm12]

/-- The clamped year replacement of a valid date is valid. -/
theorem valid_replaceYearClamped (today : Date) (h : ValidDate today) (y : ℕ) :
    ValidDate (replaceYearClamped today y) := by
  obtain ⟨h1, h2, h3, h4⟩ := h
  unfold replaceYearClamped
  by_cases hc : today.month = 2 ∧ today.day = 29 ∧ ¬ isLeap y
  · rw [if_pos hc]
    refine ⟨show (1 : ℕ) ≤ 2 by omega, show (2 : ℕ) ≤ 12 by omega,
      show (1 : ℕ) ≤ 28 by omega, ?_⟩
    show (28 : ℕ) ≤ daysInMonth y 2
    unfold daysInMonth
    rw [if_pos rfl]
    split_ifs <;> omega
  · rw [if_neg hc]
    refine ⟨h1, h2, h3, ?_⟩
    show today.day ≤ daysInMonth y today.month
    by_cases hm : today.month = 2
    · have hdimy : daysInMonth y today.month = if isLeap y then 29 else 28 := by
        unfold daysInMonth
        rw [if_pos hm]
      have hdimt : daysInMonth today.year today.month ≤ 29 := by
        unfold daysInMonth
        rw [if_pos hm]
        split_ifs <;> omega
      rw [hdimy]
      by_cases hl : isLeap y
      · rw [if_pos hl]
        omega
      · rw [if_neg hl]
        have hne29 : today.day ≠ 29 := by
          intro he
          exact hc ⟨hm, he, hl⟩
        omega
    · rw [daysInMonth_ne_two y today.month hm,
        ← daysInMonth_ne_two today.year today.month hm]
      exact h4

/-- The month-day of any year-shifted start relates to the canonical
non-leap start key: either it equals it, or it is Feb 29 while the
canonical key is Feb 28. -/
theorem replaceYear_monthDay (today : Date) (y : ℕ) :
    monthDay (replaceYearClamped today y)
        = monthDay (replaceYearClamped today 1) ∨
    (monthDay (replaceYearClamped today y) = (2, 29) ∧
        monthDay (replaceYearClamped today 1) = (2, 28)) := by
  have hone : ¬ isLeap 1 := by decide
  by_cases h29 : today.month = 2 ∧ today.day = 29
  · have hc1 : today.month = 2 ∧ today.day = 29 ∧ ¬ isLeap 1 :=
      ⟨h29.1, h29.2, hone⟩
    by_cases hly : isLeap y
    · right
      constructor
      · unfold replaceYearClamped
        rw [if_neg (by tauto)]
        unfold monthDay
        simp only
        rw [h29.1, h29.2]
      · unfold replaceYearClamped
        rw [if_pos hc1]
        rfl
    · left
      unfold replaceYearClamped
      rw [if_pos ⟨h29.1, h29.2, hly⟩, if_pos hc1]
      rfl
  · left
    unfold replaceYearClamped
    rw [if_neg (by tauto), if_neg (by tauto)]
    rfl

/-- Walking any number of days from a start that agrees with the
canonical non-leap key (up to the Feb 29 exception) stays on the
canonical non-leap trajectory, except possibly at Feb 29. -/
theorem monthDay_addDays_invariant (k : ℕ) (s : Date) (md0 : ℕ × ℕ)
    (hs : ValidDate s)
    (hbase : monthDay s = md0 ∨ (monthDay s = (2, 29) ∧ md0 = (2, 28))) :
    ∃ j ≤ k, (monthDay (addDays s k) = nlNext^[j] md0 ∨
      (monthDay (addDays s k) = (2, 29) ∧ nlNext^[j] md0 = (2, 28))) := by
  induction k with
  | zero =>
    refine ⟨0, le_refl 0, ?_⟩
    simpa using hbase
  | succ k ih =>
    obtain ⟨j, hj, hcase⟩ := ih
    rw [addDays_succ]
    have hvalid : ValidDate (addDays s k) := valid_addDays k s hs
    have hstep := monthDay_nextDay (addDays s k) hvalid
    rcases hcase with hL | ⟨hR1, hR2⟩
    · rcases hstep with hN | ⟨hleap, h28, h29⟩
      · refine ⟨j + 1, by omega, Or.inl ?_⟩
        rw [hN, hL, Function.iterate_succ_apply']
      · refine ⟨j, by omega, Or.inr ⟨h29, ?_⟩⟩
        rw [← hL, h28]
    · rcases hstep with hN | ⟨hleap, h28, h29⟩
      · refine ⟨j + 1, by omega, Or.inl ?_⟩
        rw [hN, hR1, Function.iterate_succ_apply', hR2]
        decide
      · rw [hR1] at h28
        exact absurd h28 (by decide)

/-- The `month_day` key column of the climatology table. -/
theorem clim_keys (t : HistTable) :
    (summarize_noaa_daily_climatology t).1.map (fun row => row.month_day)
      = List.insertionSort mdLE (((t.rows.filter (fun w => ¬ allAbsent w)).map
          (fun w => monthDay w.date)).dedup) := by
  unfold summarize_noaa_daily_climatology
  rw [List.map_map]
  exact (List.map_congr_left (fun k _ => rfl)).trans (List.map_id _)

/-- C7 (amended): for a historical table whose dates all lie in the
generated past-10-year ranges, the climatology table has at most
`days_back + 2` distinct month-day keys: each inclusive range spans
`days_back + 1` days (one more than the claim's bound), and leap-year
shifts can contribute the Feb 29 key on top of the canonical non-leap
trajectory. -/
theorem spec_C7_amended (today : Date) (days_back : ℕ) (t : HistTable)
    (hvalid : ValidDate today)
    (hcov : ∀ w ∈ t.rows, ∃ p ∈ generate_past_10yr_ranges today days_back,
        ∃ k < days_back + 1, w.date = addDays p.1 k) :
    (((summarize_noaa_daily_climatology t).1.map
        (fun row => row.month_day)).toFinset).card ≤ days_back + 2 := by
  have hsub : (((summarize_noaa_daily_climatology t).1.map
      (fun row => row.month_day)).toFinset) ⊆
      (Finset.range (days_back + 1)).image
          (fun j => nlNext^[j] (monthDay (replaceYearClamped today 1)))
        ∪ {(2, 29)} := by
    intro key hkey
    rw [List.mem_toFinset, clim_keys, List.mem_insertionSort,
      List.mem_dedup] at hkey
    obtain ⟨w, hwf, hwk⟩ := List.mem_map.mp hkey
    have hwr : w ∈ t.rows := List.mem_of_mem_filter hwf
    obtain ⟨p, hp, k, hk, hdate⟩ := hcov w hwr
    obtain ⟨j10, _, hpeq⟩ := List.mem_map.mp hp
    have hstart : p.1 = replaceYearClamped today (today.year - (j10 + 1)) := by
      rw [← hpeq]
    have hsvalid : ValidDate p.1 := by
      rw [hstart]
      exact valid_replaceYearClamped today hvalid _
    have hbase := replaceYear_monthDay today (today.year - (j10 + 1))
    rw [← hstart] at hbase
    obtain ⟨j, hj, hcase⟩ :=
      monthDay_addDays_invariant k p.1
        (monthDay (replaceYearClamped today 1)) hsvalid hbase
    have hkeyeq : key = monthDay (addDays p.1 k) := by
      rw [← hwk, hdate]
    rcases hcase with hL | ⟨hR, _⟩
    · refine Finset.mem_union_left _ (Finset.mem_image.mpr ⟨j, ?_, ?_⟩)
      · exact Finset.mem_range.mpr (by omega)
      · rw [← hL, ← hkeyeq]
    · refine Finset.mem_union_right _ ?_
      rw [hkeyeq, hR]
      exact Finset.mem_singleton_self _
  calc (((summarize_noaa_daily_climatology t).1.map
      (fun row => row.month_day)).toFinset).card
      ≤ ((Finset.range (days_back + 1)).image
          (fun j => nlNext^[j] (monthDay (replaceYearClamped today 1)))
        ∪ {(2, 29)}).card := Finset.card_le_card hsub
    _ ≤ ((Finset.range (days_back + 1)).image
          (fun j => nlNext^[j] (monthDay (replaceYearClamped today 1)))).card
        + ({((2 : ℕ), (29 : ℕ))} : Finset (ℕ × ℕ)).card := Finset.card_union_le _ _
    _ ≤ (days_back + 1) + 1 := by
        refine Nat.add_le_add ?_ (le_of_eq (Finset.card_singleton _))
        exact le_trans (Finset.card_image_le) (le_of_eq (Finset.card_range _))
    _ = days_back + 2 := by omega

/-- A historical table drawn entirely from the first generated range for
`today = 2025-07-10`, `days_back = 7`: the eight days
2024-07-10 .. 2024-07-17. -/
def c7table : HistTable :=
  ⟨[⟨⟨2024, 7, 10⟩, some 1, none, none, none⟩,
    ⟨⟨2024, 7, 11⟩, some 1, none, none, none⟩,
    ⟨⟨2024, 7, 12⟩, some 1, none, none, none⟩,
    ⟨⟨2024, 7, 13⟩, some 1, none, none, none⟩,
    ⟨⟨2024, 7, 14⟩, some 1, none, none, none⟩,
    ⟨⟨2024, 7, 15⟩, some 1, none, none, none⟩,
    ⟨⟨2024, 7, 16⟩, some 1, none, none, none⟩,
    ⟨⟨2024, 7, 17⟩, some 1, none, none, none⟩], false, false⟩

/-- C7 (counterexample to the claim as stated): the generated ranges are
inclusive of both endpoints, so one year's window already spans
`days_back + 1 = 8` days; with full data the climatology table has 8
distinct month-day keys, exceeding the claimed bound `days_back = 7`. -/
theorem spec_C7_counterexample :
    (∀ w ∈ c7table.rows, ∃ p ∈ generate_past_10yr_ranges ⟨2025, 7, 10⟩ 7,
        ∃ k < 8, w.date = addDays p.1 k) ∧
    ¬ ((((summarize_noaa_daily_climatology c7table).1.map
        (fun row => row.month_day)).toFinset).card ≤ 7) := by
  constructor
  · decide
  · decide

/-- C7 witness: the amended bound `days_back + 2 = 9` holds on the same
concrete table. -/
theorem spec_C7_witness :
    ValidDate ⟨2025, 7, 10⟩ ∧
    (((summarize_noaa_daily_climatology c7table).1.map
        (fun row => row.month_day)).toFinset).card ≤ 7 + 2 :=
  ⟨by decide, spec_C7_amended ⟨2025, 7, 10⟩ 7 c7table (by decide) (by decide)⟩
